import Mathlib

/-!
Verification development for the community-registration provisioning tool
(`process_registration.py`).

The provisioning orchestrator `process_excel_file`, its idempotency-guard
helpers (`check_excel_already_processed`, `check_users_exist_in_cognito`,
`check_community_group_exists`), the group helper
(`get_or_create_cognito_group`) and the Cognito account upserts
(`add_user_to_cognito`, `add_verified_user_to_cognito`) are embedded
shallowly.  External backends are modelled by an oracle record `Env` that
fixes the outcome of every remote call; the run is a pure function of the
input and the oracle, returning the list of backend calls it issued (its
trace) together with the terminal result (`done` with the summary, or
`aborted` with a reason — every `sys.exit(1)` in the source is an abort).

The Cognito account upserts are additionally given an operational model
(`CognitoState`) so that their idempotency can be stated as a statement
about the identity backend's final state.
-/

namespace CommReg

/-! ## Data model -/

/-- One community (tenant) row as produced by `read_community_data`:
the fields the orchestrator consults, with the numeric limits already
defaulted by the reader. -/
structure CommunityData where
  name : String
  phoneNumber : String
  email : String
  residentLimit : Nat
  caretakerLimit : Nat
deriving DecidableEq

/-- One caretaker (member) row as produced by `read_caretaker_data`.
`communityId` is the optional pre-existing hint carried by the input file. -/
structure CaretakerData where
  firstName : String
  lastName : String
  email : String
  communityId : Option String
deriving DecidableEq

/-- The payload actually sent to the `createCommunityCaretaker` mutation
(after the orchestrator has overwritten `communityId`). -/
structure CaretakerInput where
  firstName : String
  lastName : String
  email : String
  communityId : String
deriving DecidableEq

/-- One record returned by the `listAllCommunities` query. -/
structure CommunityRecord where
  id : String
  name : String
  email : String
deriving DecidableEq

/-- One record returned by Cognito `list_groups`. -/
structure GroupRecord where
  name : String
  description : String
deriving DecidableEq

/-- Outcome of a Cognito `admin_get_user` lookup: the user exists, a
`UserNotFoundException` was raised, or the lookup failed with some other
error (other `ClientError` or unexpected exception). -/
inductive GetUserRes
  | found
  | notFound
  | err
deriving DecidableEq

/-- Outcome of a Cognito `get_group` lookup. -/
inductive GetGroupRes
  | found
  | notFound
  | err
deriving DecidableEq

/-- Every remote call the embedded code can issue, with its payload. -/
inductive Call
  | listCommunitiesCall
  | getGroupCall (gname : String)
  | listGroupsCall
  | adminGetUserCall (email : String)
  | createCommunityCall (d : CommunityData)
  | createGroupCall (gname : String)
  | createCaretakerCall (d : CaretakerInput)
  | verifyCall (email : String)
  | addUserCall (email : String)
  | addVerifiedUserCall (email : String)
deriving DecidableEq

/-- Why the run aborted; each constructor corresponds to one `sys.exit(1)`
site inside `process_excel_file`. -/
inductive AbortReason
  | alreadyProcessed
  | usersExist
  | groupExists
  | noCommunity
  | multipleCommunities
  | communityCreateFailed
  | groupCreateFailed
  | emailMissing
  | groupNameMissing
  | cognitoRegistrationFailed
  | emptyPassword
  | passwordMismatch
  | adminCognitoFailed
  | adminCaretakerFailed
deriving DecidableEq

/-- The summary dictionary assembled at the end of `process_excel_file`. -/
structure Summary where
  communitiesTotal : Nat
  communitiesCreated : Nat
  caretakersTotal : Nat
  caretakersCreated : Nat
deriving DecidableEq

/-- Terminal outcome of a run. -/
inductive RunResult
  | done (s : Summary)
  | aborted (r : AbortReason)
deriving DecidableEq

/-- Oracle for the two external backends: the response every remote call
would receive in this run.  `none` on the two listings means the call
raised; `none` from the create operations means the mutation failed. -/
structure Env where
  adminGetUser : String → GetUserRes
  listCommunities : Option (List CommunityRecord)
  getGroup : String → GetGroupRes
  listGroups : Option (List GroupRecord)
  createCommunity : CommunityData → Option String
  createGroup : String → Bool
  createCaretaker : CaretakerInput → Option String
  verifyCaretaker : String → Bool
  addUserToCognito : String → Bool
  addVerifiedUserToCognito : String → Bool

/-! ## Excel-file model (for the processed-marker guard) -/

/-- A worksheet: rows of cells, row 1 being the header row; `none` is an
empty cell. -/
structure Sheet where
  rows : List (List (Option String))
deriving DecidableEq

/-- The workbook parts inspected by `check_excel_already_processed`:
the optional sheets named Admin Credentials and Users. -/
structure ExcelFile where
  adminSheet : Option Sheet
  usersSheet : Option Sheet
deriving DecidableEq

/-- Value of the 1-based (row, column) cell; out-of-range reads give an
empty cell, as openpyxl does. -/
def cellValue (s : Sheet) (r c : Nat) : Option String :=
  match s.rows.get? (r - 1) with
  | some row =>
    match row.get? (c - 1) with
    | some v => v
    | none => none
  | none => none

/-- Python truthiness of a cell value: present and not the empty string. -/
def truthyCell : Option String → Bool
  | some s => s != ""
  | none => false

/-- Embedding of `check_excel_already_processed`: the file counts as
processed when the Admin Credentials sheet has a populated email in cell
(2,1), or the Users sheet has a `CommunityId` column with some populated
cell below the header. -/
def check_excel_already_processed (f : ExcelFile) : Bool × String :=
  let adminHit : Bool :=
    match f.adminSheet with
    | some ws =>
      if 2 ≤ ws.rows.length then truthyCell (cellValue ws 2 1) else false
    | none => false
  if adminHit then
    (true, "Admin Credentials sheet already exists")
  else
    let usersHit : Bool :=
      match f.usersSheet with
      | some ws =>
        match (ws.rows.headD []).findIdx? (fun h => h == some "CommunityId") with
        | some idx =>
          (ws.rows.drop 1).any fun row =>
            truthyCell (match row.get? idx with | some v => v | none => none)
        | none => false
      | none => false
    if usersHit then (true, "CommunityId already exists in Users sheet")
    else (false, "")

/-! ## Pure helpers -/

/-- Group name derivation from `get_or_create_cognito_group` (and repeated
in `check_community_group_exists`). -/
def groupName (communityId : String) : String :=
  "community-" ++ communityId

/-- The community-name sanitisation used to derive the admin email:
keep alphanumeric characters lower-cased, drop the rest, and fall back to
the literal `community` when nothing remains. -/
def sanitizeCommunityName (name : String) : String :=
  let s := String.mk (name.data.filterMap fun ch =>
    if ch.isAlphanum then some ch.toLower else none)
  if s = "" then "community" else s

/-- The deterministic admin email for a community name. -/
def adminEmail (communityName : String) : String :=
  sanitizeCommunityName communityName ++ "@foresightcares.com"

/-- Lower-casing character by character, modelling Python `str.lower`. -/
def strLower (s : String) : String :=
  String.mk (s.data.map Char.toLower)

/-- Modelling the Python `str.startswith` test. -/
def strStartsWith (s pre : String) : Bool :=
  pre.data.isPrefixOf s.data

/-- Substring test, modelling the Python `in` operator on strings. -/
def strContains (hay needle : String) : Bool :=
  hay.data.tails.any fun t => needle.data.isPrefixOf t

/-! ## Idempotency-guard helpers -/

/-- Per-email loop body of `check_users_exist_in_cognito`: empty emails are
skipped without a lookup; a `found` lookup appends to the collision list;
`UserNotFoundException` and every other lookup error leave the list
unchanged. -/
def checkUsersAux (env : Env) : List String → List Call × List String
  | [] => ([], [])
  | e :: rest =>
    if e = "" then checkUsersAux env rest
    else
      (Call.adminGetUserCall e :: (checkUsersAux env rest).1,
       match env.adminGetUser e with
       | .found => e :: (checkUsersAux env rest).2
       | _ => (checkUsersAux env rest).2)

/-- Embedding of `check_users_exist_in_cognito`: returns the trace of
lookups and the pair (some user exists, list of existing emails). -/
def check_users_exist_in_cognito (env : Env) (emails : List String) :
    List Call × (Bool × List String) :=
  ((checkUsersAux env emails).1,
   (!(checkUsersAux env emails).2.isEmpty, (checkUsersAux env emails).2))

/-- Query-path scan of `check_community_group_exists`: walk the listed
communities; on an email match with a non-empty id, look the derived group
up in Cognito — `found` returns that group name, any other outcome moves on
to the next community. -/
def queryScan (env : Env) (communityEmail : String) :
    List CommunityRecord → List Call × Option String
  | [] => ([], none)
  | c :: rest =>
    if strLower c.email = strLower communityEmail ∧ c.id ≠ "" then
      match env.getGroup (groupName c.id) with
      | .found => ([Call.getGroupCall (groupName c.id)], some (groupName c.id))
      | _ =>
        (Call.getGroupCall (groupName c.id) :: (queryScan env communityEmail rest).1,
         (queryScan env communityEmail rest).2)
    else
      queryScan env communityEmail rest

/-- Fallback scan of `check_community_group_exists`: among groups whose name
starts with `community-`, find the first whose description contains the
community email or the community name (case-insensitively). -/
def fallbackScan (groups : List GroupRecord) (communityEmail communityName : String) :
    Bool × String :=
  let cgs := groups.filter fun g => strStartsWith g.name "community-"
  match cgs.find? (fun g =>
      strContains (strLower g.description) (strLower communityEmail) ||
      strContains (strLower g.description) (strLower communityName)) with
  | some g => (true, g.name)
  | none => (false, "")

/-- Embedding of `check_community_group_exists`.  The query path runs
first; when it positively finds an existing group the function returns at
once.  Otherwise — the query raised, or it succeeded without a positive
find — control falls through to the `list_groups` fallback, whose own
failure yields (false, empty). -/
def check_community_group_exists (env : Env) (communityEmail communityName : String) :
    List Call × (Bool × String) :=
  match env.listCommunities with
  | some comms =>
    match (queryScan env communityEmail comms).2 with
    | some g =>
      (Call.listCommunitiesCall :: (queryScan env communityEmail comms).1, (true, g))
    | none =>
      (Call.listCommunitiesCall :: (queryScan env communityEmail comms).1 ++ [Call.listGroupsCall],
       match env.listGroups with
       | some groups => fallbackScan groups communityEmail communityName
       | none => (false, ""))
  | none =>
    ([Call.listCommunitiesCall, Call.listGroupsCall],
     match env.listGroups with
     | some groups => fallbackScan groups communityEmail communityName
     | none => (false, ""))

/-! ## Cognito group and account operations -/

/-- Embedding of `get_or_create_cognito_group` together with the
try/except wrapping it inside `process_excel_file`: `false` means the
helper raised (lookup error, or creation failed) and the run must abort. -/
def get_or_create_cognito_group (env : Env) (gname : String) : List Call × Bool :=
  match env.getGroup gname with
  | .found => ([Call.getGroupCall gname], true)
  | .notFound =>
    ([Call.getGroupCall gname, Call.createGroupCall gname], env.createGroup gname)
  | .err => ([Call.getGroupCall gname], false)

/-- Password state of a Cognito account: a server-generated temporary
password from `admin_create_user`, or a permanent one set by
`admin_set_user_password`. -/
inductive PasswordState
  | temporary
  | permanent (pw : String)
deriving DecidableEq

/-- One Cognito account, keyed by email (the username). -/
structure CognitoAccount where
  email : String
  emailVerified : Bool
  givenName : String
  familyName : String
  password : PasswordState
  groups : List String
deriving DecidableEq

/-- The identity backend: the pool's accounts. -/
abbrev CognitoState : Type := List CognitoAccount

/-- Lookup by username. -/
def findAccount (s : CognitoState) (email : String) : Option CognitoAccount :=
  s.find? fun a => a.email == email

/-- Cognito `admin_create_user`: `none` models `UsernameExistsException`. -/
def adminCreateUser (s : CognitoState) (email given family : String)
    (verified : Bool) : Option CognitoState :=
  match findAccount s email with
  | some _ => none
  | none => some (s ++ [⟨email, verified, given, family, .temporary, []⟩])

/-- Cognito `admin_update_user_attributes` for the three attributes the
source updates. -/
def adminUpdateUserAttributes (s : CognitoState) (email : String)
    (verified : Bool) (given family : String) : CognitoState :=
  s.map fun a =>
    if a.email == email then
      { a with emailVerified := verified, givenName := given, familyName := family }
    else a

/-- Cognito `admin_set_user_password` with `Permanent=True`. -/
def adminSetUserPassword (s : CognitoState) (email pw : String) : CognitoState :=
  s.map fun a =>
    if a.email == email then { a with password := .permanent pw } else a

/-- Cognito `admin_add_user_to_group`; group membership is a set, so
re-adding is a no-op. -/
def adminAddUserToGroup (s : CognitoState) (email g : String) : CognitoState :=
  s.map fun a =>
    if a.email == email then
      { a with groups := if a.groups.contains g then a.groups else a.groups ++ [g] }
    else a

/-- Which branch an upsert took. -/
inductive UpsertPath
  | created
  | updated
deriving DecidableEq

/-- Embedding of `add_user_to_cognito` over the operational Cognito model:
try to create (unverified email, no password), and on `UsernameExists` fall
back to updating the attributes; both paths then add the group membership. -/
def add_user_to_cognito (s : CognitoState) (email first last gname : String) :
    CognitoState × Bool × UpsertPath :=
  match adminCreateUser s email first last false with
  | some s1 => (adminAddUserToGroup s1 email gname, true, .created)
  | none =>
    (adminAddUserToGroup (adminUpdateUserAttributes s email false first last) email gname,
     true, .updated)

/-- Embedding of `add_verified_user_to_cognito`: as above but with the
email pre-verified and a permanent password set on both paths. -/
def add_verified_user_to_cognito (s : CognitoState) (email pw first last gname : String) :
    CognitoState × Bool × UpsertPath :=
  match adminCreateUser s email first last true with
  | some s1 =>
    (adminAddUserToGroup (adminSetUserPassword s1 email pw) email gname, true, .created)
  | none =>
    (adminAddUserToGroup
       (adminSetUserPassword (adminUpdateUserAttributes s email true first last) email pw)
       email gname,
     true, .updated)

/-! ## The provisioning orchestrator -/

/-- The mutation payload for one caretaker: the input row with its
`communityId` unconditionally overwritten by the freshly created id. -/
def caretakerInput (c : CaretakerData) (cid : String) : CaretakerInput :=
  ⟨c.firstName, c.lastName, c.email, cid⟩

/-- The caretaker loop of `process_excel_file`.  A failed member create is
recorded and the loop continues; after a successful create a missing email
aborts, the verification query result is only logged (never branches), and
a failed `add_user_to_cognito` aborts the run.  Returns the trace and
either the abort reason or the created ids. -/
def processCaretakers (env : Env) (gname cid : String) :
    List CaretakerData → List Call × Except AbortReason (List String)
  | [] => ([], .ok [])
  | c :: rest =>
    match env.createCaretaker (caretakerInput c cid) with
    | none =>
      (Call.createCaretakerCall (caretakerInput c cid) :: (processCaretakers env gname cid rest).1,
       (processCaretakers env gname cid rest).2)
    | some newId =>
      if c.email = "" then
        ([Call.createCaretakerCall (caretakerInput c cid)], .error .emailMissing)
      else if gname = "" then
        ([Call.createCaretakerCall (caretakerInput c cid), Call.verifyCall c.email],
         .error .groupNameMissing)
      else if env.addUserToCognito c.email = false then
        ([Call.createCaretakerCall (caretakerInput c cid), Call.verifyCall c.email,
          Call.addUserCall c.email],
         .error .cognitoRegistrationFailed)
      else
        (Call.createCaretakerCall (caretakerInput c cid) :: Call.verifyCall c.email ::
           Call.addUserCall c.email :: (processCaretakers env gname cid rest).1,
         (processCaretakers env gname cid rest).2.map fun l => newId :: l)

/-- The admin step of `process_excel_file`: password prompt checks, the
pre-verified admin account upsert (fatal on failure), the admin caretaker
record (fatal on failure), and the admin verification query whose result is
only logged. -/
def adminStage (env : Env) (cid gname communityName pw pwc : String) :
    List Call × Except AbortReason String :=
  if pw = "" then ([], .error .emptyPassword)
  else if pw ≠ pwc then ([], .error .passwordMismatch)
  else if gname = "" then ([], .error .groupNameMissing)
  else if env.addVerifiedUserToCognito (adminEmail communityName) = false then
    ([Call.addVerifiedUserCall (adminEmail communityName)], .error .adminCognitoFailed)
  else
    match env.createCaretaker ⟨communityName, "Admin", adminEmail communityName, cid⟩ with
    | none =>
      ([Call.addVerifiedUserCall (adminEmail communityName),
        Call.createCaretakerCall ⟨communityName, "Admin", adminEmail communityName, cid⟩],
       .error .adminCaretakerFailed)
    | some aid =>
      ([Call.addVerifiedUserCall (adminEmail communityName),
        Call.createCaretakerCall ⟨communityName, "Admin", adminEmail communityName, cid⟩,
        Call.verifyCall (adminEmail communityName)],
       .ok aid)

/-- The candidate emails the account-collision guard checks: every
non-empty caretaker email, then the derived admin email when a community
row exists. -/
def guardEmails (comms : List CommunityData) (cares : List CaretakerData) : List String :=
  (cares.map (fun c => c.email)).filter (fun e => e != "") ++
    match comms with
    | [] => []
    | c :: _ => [adminEmail c.name]

/-- The account-collision guard step inside `process_excel_file`. -/
def usersGuard (env : Env) (comms : List CommunityData) (cares : List CaretakerData) :
    List Call × Bool :=
  let emails := guardEmails comms cares
  if emails.isEmpty then ([], false)
  else
    ((check_users_exist_in_cognito env emails).1,
     (check_users_exist_in_cognito env emails).2.1)

/-- The group-collision guard step inside `process_excel_file`: only run
when a community row with a non-empty email exists. -/
def groupGuard (env : Env) (comms : List CommunityData) : List Call × Bool :=
  match comms with
  | [] => ([], false)
  | c :: _ =>
    if c.email = "" then ([], false)
    else
      ((check_community_group_exists env c.email c.name).1,
       (check_community_group_exists env c.email c.name).2.1)

/-- Embedding of `process_excel_file` after authentication: the
processed-marker guard, the account-collision guard, the group-collision
guard, the exactly-one-community validation, community creation, group
creation, the caretaker loop, and the admin stage, in source order.
Returns the trace of backend calls and the terminal result. -/
def process_excel_file (env : Env) (f : ExcelFile) (comms : List CommunityData)
    (cares : List CaretakerData) (pw pwc : String) : List Call × RunResult :=
  if (check_excel_already_processed f).1 then
    ([], .aborted .alreadyProcessed)
  else
    let tr1 := (usersGuard env comms cares).1
    if (usersGuard env comms cares).2 then (tr1, .aborted .usersExist)
    else
      let tr2 := (groupGuard env comms).1
      if (groupGuard env comms).2 then (tr1 ++ tr2, .aborted .groupExists)
      else
        match comms with
        | [] => (tr1 ++ tr2, .aborted .noCommunity)
        | _ :: _ :: _ => (tr1 ++ tr2, .aborted .multipleCommunities)
        | [c] =>
          match env.createCommunity c with
          | none =>
            (tr1 ++ tr2 ++ [Call.createCommunityCall c], .aborted .communityCreateFailed)
          | some cid =>
            let tr3 := (get_or_create_cognito_group env (groupName cid)).1
            let base := tr1 ++ tr2 ++ [Call.createCommunityCall c] ++ tr3
            if (get_or_create_cognito_group env (groupName cid)).2 = false then
              (base, .aborted .groupCreateFailed)
            else
              let tr4 := (processCaretakers env (groupName cid) cid cares).1
              match (processCaretakers env (groupName cid) cid cares).2 with
              | .error reason => (base ++ tr4, .aborted reason)
              | .ok created =>
                let tr5 := (adminStage env cid (groupName cid) c.name pw pwc).1
                match (adminStage env cid (groupName cid) c.name pw pwc).2 with
                | .error reason => (base ++ tr4 ++ tr5, .aborted reason)
                | .ok _ =>
                  (base ++ tr4 ++ tr5,
                   .done ⟨1, 1, cares.length, created.length⟩)

/-! ## Call classification and counting -/

/-- Is this call the tenant-creation mutation on the data backend? -/
def isCommunityCreate : Call → Bool
  | .createCommunityCall _ => true
  | _ => false

/-- Is this call the group-creation mutation on the identity backend? -/
def isGroupCreate : Call → Bool
  | .createGroupCall _ => true
  | _ => false

/-- Is this call the member-creation mutation on the data backend? -/
def isMemberCreate : Call → Bool
  | .createCaretakerCall _ => true
  | _ => false

/-- Is this call an account-level write on the identity backend? -/
def isIdentityWrite : Call → Bool
  | .addUserCall _ => true
  | .addVerifiedUserCall _ => true
  | _ => false

/-- Is this call any create/update mutation on either backend? -/
def isMutation (c : Call) : Bool :=
  isCommunityCreate c || isGroupCreate c || isMemberCreate c || isIdentityWrite c

/-- Number of calls in a trace matching a classification. -/
def countCalls (p : Call → Bool) (tr : List Call) : Nat :=
  (tr.filter p).length

/-- Does a lookup outcome report an existing user? -/
def isFound : GetUserRes → Bool
  | .found => true
  | _ => false

/-! ## Concrete fixtures used by counterexamples and witnesses -/

/-- The tenant row from the spec's worked scenario. -/
def commOak : CommunityData := ⟨"Oak Manor", "+1-555-1111", "oak@x.com", 100, 10⟩

/-- First member row of the scenario. -/
def careAlice : CaretakerData := ⟨"Alice", "Lee", "alice@x.com", none⟩

/-- Second member row of the scenario. -/
def careBob : CaretakerData := ⟨"Bob", "Kim", "bob@x.com", none⟩

/-- A workbook with neither marker sheet. -/
def fileBlank : ExcelFile := ⟨none, none⟩

/-- A workbook whose Admin Credentials sheet carries a populated email. -/
def fileProcessed : ExcelFile :=
  ⟨some ⟨[[some "Username (Email)", some "Password"], [some "admin@x.com", some "pw"]]⟩, none⟩

/-- A backend oracle on which every guard lookup comes back clean and every
mutation succeeds. -/
def envAllGood : Env :=
  { adminGetUser := fun _ => .notFound
    listCommunities := some []
    getGroup := fun _ => .notFound
    listGroups := some []
    createCommunity := fun _ => some "id1"
    createGroup := fun _ => true
    createCaretaker := fun _ => some "cid1"
    verifyCaretaker := fun _ => true
    addUserToCognito := fun _ => true
    addVerifiedUserToCognito := fun _ => true }

/-- As `envAllGood` but the post-creation verification query finds nothing. -/
def envVerifyFails : Env := { envAllGood with verifyCaretaker := fun _ => false }

/-- As `envAllGood` but every member account upsert fails. -/
def envUpsertFails : Env := { envAllGood with addUserToCognito := fun _ => false }

/-- As `envAllGood` but tenant creation fails. -/
def envCreateFails : Env := { envAllGood with createCommunity := fun _ => none }

/-- As `envAllGood` but every account-existence lookup fails with an error
other than user-not-found. -/
def envLookupErr : Env := { envAllGood with adminGetUser := fun _ => .err }

/-- As `envAllGood` but the identity backend lists one community group whose
description mentions Oak Manor, while the data backend lists no community. -/
def envGroupsListed : Env :=
  { envAllGood with
      listGroups := some [⟨"community-1", "Group for community: Oak Manor (ID: 1)"⟩] }

/-- As `envAllGood` but the tenant-listing query raises. -/
def envQueryFails : Env := { envAllGood with listCommunities := none }

/-- As `envAllGood` but the admin account upsert fails. -/
def envAdminUpsertFails : Env :=
  { envAllGood with addVerifiedUserToCognito := fun _ => false }

/-! ## Helper lemmas about guard traces -/

/-- Every call issued by the account-collision scan is an
`admin_get_user` lookup. -/
theorem checkUsersAux_calls (env : Env) (emails : List String) :
    ∀ call ∈ (checkUsersAux env emails).1, ∃ e, call = Call.adminGetUserCall e := by
  induction emails with
  | nil => intro call h; simp [checkUsersAux] at h
  | cons e rest ih =>
    intro call h
    by_cases he : e = ""
    · rw [checkUsersAux, if_pos he] at h
      exact ih call h
    · rw [checkUsersAux, if_neg he] at h
      rcases List.mem_cons.mp h with h | h
      · exact ⟨e, h⟩
      · exact ih call h

/-- Every call issued by the query-path scan of the group-collision check
is a `get_group` lookup. -/
theorem queryScan_calls (env : Env) (ce : String) (l : List CommunityRecord) :
    ∀ call ∈ (queryScan env ce l).1, ∃ g, call = Call.getGroupCall g := by
  induction l with
  | nil => intro call h; simp [queryScan] at h
  | cons c rest ih =>
    intro call h
    rw [queryScan] at h
    by_cases hc : strLower c.email = strLower ce ∧ c.id ≠ ""
    · rw [if_pos hc] at h
      cases hg : env.getGroup (groupName c.id) <;> rw [hg] at h
      · rcases List.mem_singleton.mp h with h
        exact ⟨groupName c.id, h⟩
      · rcases List.mem_cons.mp h with h | h
        · exact ⟨groupName c.id, h⟩
        · exact ih call h
      · rcases List.mem_cons.mp h with h | h
        · exact ⟨groupName c.id, h⟩
        · exact ih call h
    · rw [if_neg hc] at h
      exact ih call h

/-- Every call issued by the group-collision check is one of the three
read-only lookups. -/
theorem check_group_calls (env : Env) (ce cn : String) :
    ∀ call ∈ (check_community_group_exists env ce cn).1,
      call = Call.listCommunitiesCall ∨ (∃ g, call = Call.getGroupCall g) ∨
        call = Call.listGroupsCall := by
  intro call h
  cases hl : env.listCommunities with
  | none =>
    rw [check_community_group_exists, hl] at h
    dsimp only at h
    rcases List.mem_cons.mp h with h | h
    · exact Or.inl h
    · exact Or.inr (Or.inr (List.mem_singleton.mp h))
  | some comms =>
    rw [check_community_group_exists, hl] at h
    dsimp only at h
    cases hq : (queryScan env ce comms).2 with
    | none =>
      rw [hq] at h
      dsimp only at h
      rcases List.mem_cons.mp h with h | h
      · exact Or.inl h
      · rcases List.mem_append.mp h with h | h
        · exact Or.inr (Or.inl (queryScan_calls env ce comms call h))
        · exact Or.inr (Or.inr (List.mem_singleton.mp h))
    | some g =>
      rw [hq] at h
      dsimp only at h
      rcases List.mem_cons.mp h with h | h
      · exact Or.inl h
      · exact Or.inr (Or.inl (queryScan_calls env ce comms call h))

/-- The account-collision guard issues no mutation. -/
theorem usersGuard_not_mutation (env : Env) (comms : List CommunityData)
    (cares : List CaretakerData) :
    ∀ call ∈ (usersGuard env comms cares).1, isMutation call = false := by
  intro call h
  rw [usersGuard] at h
  by_cases he : (guardEmails comms cares).isEmpty
  · simp [he] at h
  · rw [if_neg he] at h
    obtain ⟨e, rfl⟩ := checkUsersAux_calls env (guardEmails comms cares) call h
    rfl

/-- The group-collision guard issues no mutation. -/
theorem groupGuard_not_mutation (env : Env) (comms : List CommunityData) :
    ∀ call ∈ (groupGuard env comms).1, isMutation call = false := by
  intro call h
  match comms with
  | [] => simp [groupGuard] at h
  | c :: rest =>
    rw [groupGuard] at h
    by_cases he : c.email = ""
    · simp [he] at h
    · rw [if_neg he] at h
      rcases check_group_calls env c.email c.name call h with h | ⟨g, h⟩ | h <;> subst h <;> rfl

/-- Unpacking `isMutation` into its four components. -/
theorem not_mutation_split (call : Call) (h : isMutation call = false) :
    isCommunityCreate call = false ∧ isGroupCreate call = false ∧
      isMemberCreate call = false ∧ isIdentityWrite call = false := by
  cases call <;> simp_all [isMutation, isCommunityCreate, isGroupCreate, isMemberCreate,
    isIdentityWrite]

/-- Counting calls distributes over trace concatenation. -/
theorem countCalls_append (p : Call → Bool) (a b : List Call) :
    countCalls p (a ++ b) = countCalls p a + countCalls p b := by
  simp [countCalls, List.filter_append]

/-- A trace without matching calls counts zero. -/
theorem countCalls_zero (p : Call → Bool) (tr : List Call)
    (h : ∀ call ∈ tr, p call = false) : countCalls p tr = 0 := by
  simp only [countCalls, List.length_eq_zero]
  exact List.filter_eq_nil_iff.mpr fun a ha => by simp [h a ha]

/-- A derived group name is never the empty string. -/
theorem groupName_ne_empty (cid : String) : groupName cid ≠ "" := by
  intro h
  have hd := congrArg String.data h
  rw [groupName] at hd
  simp [String.data_append] at hd

/-- The collision list computed by the account-collision scan is exactly
the non-empty candidate emails whose lookup positively found a user. -/
theorem checkUsersAux_existing (env : Env) (emails : List String) :
    (checkUsersAux env emails).2 =
      emails.filter fun e => e != "" && isFound (env.adminGetUser e) := by
  induction emails with
  | nil => rfl
  | cons e rest ih =>
    by_cases he : e = ""
    · subst he
      rw [checkUsersAux, if_pos rfl, ih]
      simp [List.filter]
    · rw [checkUsersAux, if_neg he]
      cases hr : env.adminGetUser e <;>
        simp [List.filter_cons, he, hr, isFound, ih]

/-! ## Claim theorems -/

/-- Claim C3: whenever the processed marker is present — a populated Admin
Credentials email cell or a populated CommunityId cell in the Users sheet,
i.e. `check_excel_already_processed` trips — the run aborts with the
already-processed reason before issuing a single backend call, so zero
create/update calls occur on either client. -/
theorem marker_blocks_run (env : Env) (f : ExcelFile) (comms : List CommunityData)
    (cares : List CaretakerData) (pw pwc : String)
    (h : (check_excel_already_processed f).1 = true) :
    process_excel_file env f comms cares pw pwc = ([], .aborted .alreadyProcessed) := by
  rw [process_excel_file, if_pos h]

/-- Witness for C3 at the scenario input with a populated Admin Credentials
sheet. -/
theorem marker_blocks_run_witness :
    process_excel_file envAllGood fileProcessed [commOak] [careAlice] "pw" "pw" =
      ([], .aborted .alreadyProcessed) :=
  marker_blocks_run envAllGood fileProcessed [commOak] [careAlice] "pw" "pw" rfl

/-- Claim C7: group-name derivation is pure and deterministic — it equals
the literal prefix `community-` followed by the tenant id — and injective:
distinct tenant ids derive distinct group names. -/
theorem group_name_pure_injective :
    (∀ id, groupName id = "community-" ++ id) ∧
    ∀ id1 id2, id1 ≠ id2 → groupName id1 ≠ groupName id2 := by
  refine ⟨fun id => rfl, fun id1 id2 hne h => hne ?_⟩
  rw [groupName, groupName] at h
  have hd := congrArg String.data h
  rw [String.data_append, String.data_append] at hd
  have h2 := List.append_cancel_left hd
  cases id1 with
  | mk d1 =>
    cases id2 with
    | mk d2 => exact congrArg String.mk h2

/-- Witness for C7 at two distinct concrete tenant ids. -/
theorem group_name_pure_injective_witness :
    groupName "tenant1" ≠ groupName "tenant2" :=
  group_name_pure_injective.2 "tenant1" "tenant2" (by decide)

/-- Claim C8: both account upserts are idempotent.  Starting from an empty
identity backend, running the upsert a second time with identical
arguments leaves the pool in exactly the state the first call produced,
reports success, and takes the already-exists update path. -/
theorem account_upsert_idempotent (email first last gname pw : String) :
    add_user_to_cognito (add_user_to_cognito [] email first last gname).1
        email first last gname =
      ((add_user_to_cognito [] email first last gname).1, true, .updated) ∧
    add_verified_user_to_cognito
        (add_verified_user_to_cognito [] email pw first last gname).1
        email pw first last gname =
      ((add_verified_user_to_cognito [] email pw first last gname).1, true, .updated) := by
  constructor <;>
    simp [add_user_to_cognito, add_verified_user_to_cognito, adminCreateUser, findAccount,
      adminUpdateUserAttributes, adminSetUserPassword, adminAddUserToGroup, List.find?]

/-- Claim C10: the account-collision scan treats every lookup outcome other
than a positive find as non-existence.  The collision list is exactly the
non-empty emails whose lookup returned `found`; in particular an email
whose lookup errored is never in it, so errored lookups cannot trip the
guard. -/
theorem lookup_error_not_blocking (env : Env) (emails : List String) :
    (check_users_exist_in_cognito env emails).2 =
      (!(emails.filter fun e => e != "" && isFound (env.adminGetUser e)).isEmpty,
        emails.filter fun e => e != "" && isFound (env.adminGetUser e)) ∧
    ∀ e, env.adminGetUser e = .err →
      e ∉ (check_users_exist_in_cognito env emails).2.2 := by
  constructor
  · rw [check_users_exist_in_cognito, checkUsersAux_existing]
  · intro e herr hmem
    rw [check_users_exist_in_cognito] at hmem
    simp only [checkUsersAux_existing, List.mem_filter] at hmem
    rw [herr] at hmem
    simp [isFound] at hmem

/-- Witness for C10: an errored lookup leaves the collision list empty. -/
theorem lookup_error_not_blocking_witness :
    "alice@x.com" ∉ (check_users_exist_in_cognito envLookupErr ["alice@x.com"]).2.2 :=
  (lookup_error_not_blocking envLookupErr ["alice@x.com"]).2 "alice@x.com" rfl

/-- Claim C1: per member in the provisioning loop — a failed data-backend
member create is recorded and the loop carries on with the remaining
members; a verification query that finds nothing is a non-fatal alarm and
the loop equally carries on; but a failed identity-account upsert halts the
loop at once with the fatal registration error (which `process_excel_file`
maps straight to an abort), the trace ending at that member so that no
later member is ever processed. -/
theorem member_loop_policy (env : Env) (gname cid : String) (c : CaretakerData)
    (rest : List CaretakerData) :
    (env.createCaretaker (caretakerInput c cid) = none →
      processCaretakers env gname cid (c :: rest) =
        (Call.createCaretakerCall (caretakerInput c cid) ::
           (processCaretakers env gname cid rest).1,
         (processCaretakers env gname cid rest).2)) ∧
    (∀ newId, env.createCaretaker (caretakerInput c cid) = some newId →
      c.email ≠ "" → gname ≠ "" → env.verifyCaretaker c.email = false →
      env.addUserToCognito c.email = true →
      processCaretakers env gname cid (c :: rest) =
        (Call.createCaretakerCall (caretakerInput c cid) :: Call.verifyCall c.email ::
           Call.addUserCall c.email :: (processCaretakers env gname cid rest).1,
         (processCaretakers env gname cid rest).2.map fun l => newId :: l)) ∧
    (∀ newId, env.createCaretaker (caretakerInput c cid) = some newId →
      c.email ≠ "" → gname ≠ "" → env.addUserToCognito c.email = false →
      processCaretakers env gname cid (c :: rest) =
        ([Call.createCaretakerCall (caretakerInput c cid), Call.verifyCall c.email,
          Call.addUserCall c.email],
         .error .cognitoRegistrationFailed)) := by
  refine ⟨fun h => ?_, fun newId h he hg hv hu => ?_, fun newId h he hg hu => ?_⟩
  · rw [processCaretakers, h]
  · simp [processCaretakers, h, he, hg, hu]
  · simp [processCaretakers, h, he, hg, hu]

/-- Witness for C1 on the spec scenario: Alice's account upsert fails, the
loop halts with the fatal registration error and Bob is never processed. -/
theorem member_loop_policy_witness :
    processCaretakers envUpsertFails "community-id1" "id1" [careAlice, careBob] =
      ([Call.createCaretakerCall ⟨"Alice", "Lee", "alice@x.com", "id1"⟩,
        Call.verifyCall "alice@x.com", Call.addUserCall "alice@x.com"],
       .error .cognitoRegistrationFailed) :=
  (member_loop_policy envUpsertFails "community-id1" "id1" careAlice [careBob]).2.2
    "cid1" rfl (by decide) (by decide) rfl

/-- Counterexample to claim C2 as stated: a run in which the admin
verification re-query finds nothing (the verify oracle answers false for
the admin email) still terminates in `done`, not in an abort. -/
theorem admin_verify_nonfatal_cex :
    (process_excel_file envVerifyFails fileBlank [commOak] [] "pw" "pw").2 =
      .done ⟨1, 1, 0, 0⟩ ∧
    envVerifyFails.verifyCaretaker (adminEmail commOak.name) = false :=
  ⟨rfl, rfl⟩

/-- Claim C2 (amended): in the admin step a failed admin account upsert and
a failed admin member-record creation are each fatal, while the admin
verification re-query is a non-fatal alarm — with the upsert and the
member create succeeding the stage succeeds whatever the verification
oracle answers, and the run continues to `done`. -/
theorem admin_stage_failures (env : Env) (cid gname n pw pwc : String)
    (hpw : pw ≠ "") (hmatch : pw = pwc) (hg : gname ≠ "") :
    (env.addVerifiedUserToCognito (adminEmail n) = false →
      (adminStage env cid gname n pw pwc).2 = .error .adminCognitoFailed) ∧
    (env.addVerifiedUserToCognito (adminEmail n) = true →
      env.createCaretaker ⟨n, "Admin", adminEmail n, cid⟩ = none →
      (adminStage env cid gname n pw pwc).2 = .error .adminCaretakerFailed) ∧
    (∀ aid, env.addVerifiedUserToCognito (adminEmail n) = true →
      env.createCaretaker ⟨n, "Admin", adminEmail n, cid⟩ = some aid →
      (adminStage env cid gname n pw pwc).2 = .ok aid) := by
  subst hmatch
  refine ⟨fun hfail => ?_, fun hok hnone => ?_, fun aid hok hsome => ?_⟩
  · simp [adminStage, hpw, hg, hfail]
  · simp [adminStage, hpw, hg, hok, hnone]
  · simp [adminStage, hpw, hg, hok, hsome]

/-- Witness for C2 (amended): a failing admin upsert makes the admin stage
fail with the fatal reason. -/
theorem admin_stage_failures_witness :
    (adminStage envAdminUpsertFails "id1" "community-id1" "Oak Manor" "pw" "pw").2 =
      .error .adminCognitoFailed :=
  (admin_stage_failures envAdminUpsertFails "id1" "community-id1" "Oak Manor" "pw" "pw"
    (by decide) rfl (by decide)).1 rfl

/-- Counterexample to claim C9 as stated: the tenant-listing query succeeds
(returning no communities), yet the identity-group fallback is still
consulted — the `list_groups` call appears in the trace — and it alone
decides the outcome, reporting a collision the query path never found. -/
theorem fallback_after_query_success_cex :
    envGroupsListed.listCommunities = some [] ∧
    (queryScan envGroupsListed "oak@x.com" []).2 = none ∧
    Call.listGroupsCall ∈
      (check_community_group_exists envGroupsListed "oak@x.com" "Oak Manor").1 ∧
    (check_community_group_exists envGroupsListed "oak@x.com" "Oak Manor").2 =
      (true, "community-1") :=
  ⟨rfl, rfl, by decide, rfl⟩

/-- Claim C9 (amended): the group-collision check consults the
`list_groups` fallback exactly when the query path does not positively find
an existing group — when the tenant-listing query fails, and also when it
succeeds without a positive find; only when the query path does find a
group is the outcome decided by the query path alone, the fallback staying
unconsulted. -/
theorem fallback_policy (env : Env) (ce cn : String) :
    (env.listCommunities = none →
      Call.listGroupsCall ∈ (check_community_group_exists env ce cn).1) ∧
    (∀ comms g, env.listCommunities = some comms →
      (queryScan env ce comms).2 = some g →
      (check_community_group_exists env ce cn).2 = (true, g) ∧
      Call.listGroupsCall ∉ (check_community_group_exists env ce cn).1) ∧
    (∀ comms, env.listCommunities = some comms →
      (queryScan env ce comms).2 = none →
      Call.listGroupsCall ∈ (check_community_group_exists env ce cn).1) := by
  refine ⟨fun h => ?_, fun comms g hl hq => ?_, fun comms hl hq => ?_⟩
  · rw [check_community_group_exists, h]
    dsimp only
    simp
  · rw [check_community_group_exists, hl]
    dsimp only
    rw [hq]
    dsimp only
    refine ⟨rfl, fun hmem => ?_⟩
    rcases List.mem_cons.mp hmem with h | h
    · simp at h
    · obtain ⟨g2, hg2⟩ := queryScan_calls env ce comms _ h
      simp at hg2
  · rw [check_community_group_exists, hl]
    dsimp only
    rw [hq]
    dsimp only
    simp

/-- Witness for C9 (amended): when the tenant-listing query raises, the
fallback lookup is consulted. -/
theorem fallback_policy_witness :
    Call.listGroupsCall ∈
      (check_community_group_exists envQueryFails "oak@x.com" "Oak Manor").1 :=
  (fallback_policy envQueryFails "oak@x.com" "Oak Manor").1 rfl

/-- Every call issued by the group get-or-create helper concerns that
group only: its lookup or its creation. -/
theorem get_or_create_calls (env : Env) (g : String) :
    ∀ call ∈ (get_or_create_cognito_group env g).1,
      call = Call.getGroupCall g ∨ call = Call.createGroupCall g := by
  intro call h
  rw [get_or_create_cognito_group] at h
  cases hg : env.getGroup g <;> rw [hg] at h <;> try dsimp only at h
  · exact Or.inl (List.mem_singleton.mp h)
  · simpa using h
  · exact Or.inl (List.mem_singleton.mp h)

/-- Every member-creation payload issued by the caretaker loop carries the
community id the loop was given. -/
theorem processCaretakers_member_calls (env : Env) (gname cid : String)
    (l : List CaretakerData) (d : CaretakerInput)
    (h : Call.createCaretakerCall d ∈ (processCaretakers env gname cid l).1) :
    d.communityId = cid := by
  induction l with
  | nil => simp [processCaretakers] at h
  | cons c rest ih =>
    rw [processCaretakers] at h
    cases hc : env.createCaretaker (caretakerInput c cid) with
    | none =>
      rw [hc] at h
      try dsimp only at h
      rcases List.mem_cons.mp h with h | h
      · obtain rfl : d = caretakerInput c cid := by simpa using h
        rfl
      · exact ih h
    | some newId =>
      rw [hc] at h
      try dsimp only at h
      by_cases he : c.email = ""
      · rw [if_pos he] at h
        try dsimp only at h
        obtain rfl : d = caretakerInput c cid := by simpa using h
        rfl
      · rw [if_neg he] at h
        by_cases hgn : gname = ""
        · rw [if_pos hgn] at h
          try dsimp only at h
          have : d = caretakerInput c cid := by simpa using h
          subst this
          rfl
        · rw [if_neg hgn] at h
          by_cases hu : env.addUserToCognito c.email = false
          · rw [if_pos hu] at h
            try dsimp only at h
            have : d = caretakerInput c cid := by simpa using h
            subst this
            rfl
          · rw [if_neg hu] at h
            try dsimp only at h
            rcases List.mem_cons.mp h with h | h
            · obtain rfl : d = caretakerInput c cid := by simpa using h
              rfl
            rcases List.mem_cons.mp h with h | h
            · simp at h
            rcases List.mem_cons.mp h with h | h
            · simp at h
            · exact ih h

/-- The only member-creation payload the admin stage can issue is the
admin record bound to the given community id. -/
theorem adminStage_member_calls (env : Env) (cid gname n pw pwc : String)
    (d : CaretakerInput)
    (h : Call.createCaretakerCall d ∈ (adminStage env cid gname n pw pwc).1) :
    d = ⟨n, "Admin", adminEmail n, cid⟩ := by
  rw [adminStage] at h
  by_cases h1 : pw = ""
  · rw [if_pos h1] at h
    simp at h
  · rw [if_neg h1] at h
    by_cases h2 : pw ≠ pwc
    · rw [if_pos h2] at h
      simp at h
    · rw [if_neg h2] at h
      by_cases h3 : gname = ""
      · rw [if_pos h3] at h
        simp at h
      · rw [if_neg h3] at h
        by_cases h4 : env.addVerifiedUserToCognito (adminEmail n) = false
        · rw [if_pos h4] at h
          simp at h
        · rw [if_neg h4] at h
          cases hc : env.createCaretaker ⟨n, "Admin", adminEmail n, cid⟩ with
          | none =>
            rw [hc] at h
            try dsimp only at h
            simpa using h
          | some aid =>
            rw [hc] at h
            try dsimp only at h
            simpa using h

/-- Claim C4: when tenant creation fails the run terminates in an abort
having issued no group-creation call, no member-creation call, and no
identity-account write — the dependent steps are unreachable, not merely
unattempted. -/
theorem tenant_failure_no_downstream (env : Env) (f : ExcelFile) (c : CommunityData)
    (cares : List CaretakerData) (pw pwc : String)
    (hfail : env.createCommunity c = none) :
    (∃ r, (process_excel_file env f [c] cares pw pwc).2 = .aborted r) ∧
    ∀ call ∈ (process_excel_file env f [c] cares pw pwc).1,
      isGroupCreate call = false ∧ isMemberCreate call = false ∧
        isIdentityWrite call = false := by
  by_cases h1 : (check_excel_already_processed f).1
  · rw [process_excel_file, if_pos h1]
    refine ⟨⟨.alreadyProcessed, rfl⟩, ?_⟩
    intro call hc
    simp at hc
  · by_cases h2 : (usersGuard env [c] cares).2
    · have hrun : process_excel_file env f [c] cares pw pwc =
          ((usersGuard env [c] cares).1, .aborted .usersExist) := by
        rw [process_excel_file, if_neg h1]
        try dsimp only
        rw [if_pos h2]
      rw [hrun]
      refine ⟨⟨.usersExist, rfl⟩, fun call hc => ?_⟩
      have hm := not_mutation_split call (usersGuard_not_mutation env [c] cares call hc)
      exact ⟨hm.2.1, hm.2.2.1, hm.2.2.2⟩
    · by_cases h3 : (groupGuard env [c]).2
      · have hrun : process_excel_file env f [c] cares pw pwc =
            ((usersGuard env [c] cares).1 ++ (groupGuard env [c]).1,
             .aborted .groupExists) := by
          rw [process_excel_file, if_neg h1]
          try dsimp only
          rw [if_neg h2]
          try dsimp only
          rw [if_pos h3]
        rw [hrun]
        refine ⟨⟨.groupExists, rfl⟩, fun call hc => ?_⟩
        rcases List.mem_append.mp hc with hc | hc
        · have hm := not_mutation_split call (usersGuard_not_mutation env [c] cares call hc)
          exact ⟨hm.2.1, hm.2.2.1, hm.2.2.2⟩
        · have hm := not_mutation_split call (groupGuard_not_mutation env [c] call hc)
          exact ⟨hm.2.1, hm.2.2.1, hm.2.2.2⟩
      · have hrun : process_excel_file env f [c] cares pw pwc =
            ((usersGuard env [c] cares).1 ++ (groupGuard env [c]).1 ++
               [Call.createCommunityCall c],
             .aborted .communityCreateFailed) := by
          rw [process_excel_file, if_neg h1]
          try dsimp only
          rw [if_neg h2]
          try dsimp only
          rw [if_neg h3]
          try dsimp only
          rw [hfail]
        rw [hrun]
        refine ⟨⟨.communityCreateFailed, rfl⟩, fun call hc => ?_⟩
        rcases List.mem_append.mp hc with hc | hc
        · rcases List.mem_append.mp hc with hc | hc
          · have hm := not_mutation_split call (usersGuard_not_mutation env [c] cares call hc)
            exact ⟨hm.2.1, hm.2.2.1, hm.2.2.2⟩
          · have hm := not_mutation_split call (groupGuard_not_mutation env [c] call hc)
            exact ⟨hm.2.1, hm.2.2.1, hm.2.2.2⟩
        · obtain rfl := List.mem_singleton.mp hc
          exact ⟨rfl, rfl, rfl⟩

/-- Witness for C4 at a concrete failing-create run, instantiated at the
one mutation its trace does contain — the tenant create itself. -/
theorem tenant_failure_no_downstream_witness :
    isGroupCreate (Call.createCommunityCall commOak) = false ∧
    isMemberCreate (Call.createCommunityCall commOak) = false ∧
    isIdentityWrite (Call.createCommunityCall commOak) = false :=
  (tenant_failure_no_downstream envCreateFails fileBlank commOak [careAlice] "pw" "pw" rfl).2
    (Call.createCommunityCall commOak) (by decide)

/-- Claim C6: every member record sent to the data backend — the loop
members' and the admin's alike — carries as its community id exactly the id
the tenant creation of this run returned, whatever community id the input
rows carried. -/
theorem member_create_binds_tenant (env : Env) (f : ExcelFile)
    (comms : List CommunityData) (cares : List CaretakerData) (pw pwc : String)
    (d : CaretakerInput)
    (h : Call.createCaretakerCall d ∈ (process_excel_file env f comms cares pw pwc).1) :
    ∃ c, comms = [c] ∧ env.createCommunity c = some d.communityId := by
  by_cases h1 : (check_excel_already_processed f).1
  · rw [process_excel_file, if_pos h1] at h
    simp at h
  · rw [process_excel_file, if_neg h1] at h
    try dsimp only at h
    by_cases h2 : (usersGuard env comms cares).2
    · rw [if_pos h2] at h
      have hm := usersGuard_not_mutation env comms cares _ h
      simp [isMutation, isMemberCreate, isCommunityCreate, isGroupCreate,
        isIdentityWrite] at hm
    · rw [if_neg h2] at h
      try dsimp only at h
      by_cases h3 : (groupGuard env comms).2
      · rw [if_pos h3] at h
        rcases List.mem_append.mp h with h | h
        · have hm := usersGuard_not_mutation env comms cares _ h
          simp [isMutation, isMemberCreate, isCommunityCreate, isGroupCreate,
            isIdentityWrite] at hm
        · have hm := groupGuard_not_mutation env comms _ h
          simp [isMutation, isMemberCreate, isCommunityCreate, isGroupCreate,
            isIdentityWrite] at hm
      · rw [if_neg h3] at h
        cases comms with
        | nil =>
          try dsimp only at h
          rcases List.mem_append.mp h with h | h
          · have hm := usersGuard_not_mutation env [] cares _ h
            simp [isMutation, isMemberCreate, isCommunityCreate, isGroupCreate,
              isIdentityWrite] at hm
          · have hm := groupGuard_not_mutation env [] _ h
            simp [isMutation, isMemberCreate, isCommunityCreate, isGroupCreate,
              isIdentityWrite] at hm
        | cons c rest =>
          cases rest with
          | cons c2 rest2 =>
            try dsimp only at h
            rcases List.mem_append.mp h with h | h
            · have hm := usersGuard_not_mutation env (c :: c2 :: rest2) cares _ h
              simp [isMutation, isMemberCreate, isCommunityCreate, isGroupCreate,
                isIdentityWrite] at hm
            · have hm := groupGuard_not_mutation env (c :: c2 :: rest2) _ h
              simp [isMutation, isMemberCreate, isCommunityCreate, isGroupCreate,
                isIdentityWrite] at hm
          | nil =>
            try dsimp only at h
            cases hc : env.createCommunity c with
            | none =>
              rw [hc] at h
              try dsimp only at h
              rcases List.mem_append.mp h with h | h
              · rcases List.mem_append.mp h with h | h
                · have hm := usersGuard_not_mutation env [c] cares _ h
                  simp [isMutation, isMemberCreate, isCommunityCreate, isGroupCreate,
                    isIdentityWrite] at hm
                · have hm := groupGuard_not_mutation env [c] _ h
                  simp [isMutation, isMemberCreate, isCommunityCreate, isGroupCreate,
                    isIdentityWrite] at hm
              · simp at h
            | some cid =>
              rw [hc] at h
              try dsimp only at h
              suffices hone : d.communityId = cid by
                exact ⟨c, rfl, by rw [hc, hone]⟩
              by_cases hgk : (get_or_create_cognito_group env (groupName cid)).2 = false
              · rw [if_pos hgk] at h
                rcases List.mem_append.mp h with h | h
                · rcases List.mem_append.mp h with h | h
                  · rcases List.mem_append.mp h with h | h
                    · have hm := usersGuard_not_mutation env [c] cares _ h
                      simp [isMutation, isMemberCreate, isCommunityCreate, isGroupCreate,
                        isIdentityWrite] at hm
                    · have hm := groupGuard_not_mutation env [c] _ h
                      simp [isMutation, isMemberCreate, isCommunityCreate, isGroupCreate,
                        isIdentityWrite] at hm
                  · simp at h
                · rcases get_or_create_calls env (groupName cid) _ h with h | h <;> simp at h
              · rw [if_neg hgk] at h
                try dsimp only at h
                have hbase : ∀ call ∈ (usersGuard env [c] cares).1 ++ (groupGuard env [c]).1 ++
                    [Call.createCommunityCall c] ++
                    (get_or_create_cognito_group env (groupName cid)).1,
                    call ≠ Call.createCaretakerCall d := by
                  intro call hcall hEq
                  subst hEq
                  rcases List.mem_append.mp hcall with hcall | hcall
                  · rcases List.mem_append.mp hcall with hcall | hcall
                    · rcases List.mem_append.mp hcall with hcall | hcall
                      · have hm := usersGuard_not_mutation env [c] cares _ hcall
                        simp [isMutation, isMemberCreate, isCommunityCreate, isGroupCreate,
                          isIdentityWrite] at hm
                      · have hm := groupGuard_not_mutation env [c] _ hcall
                        simp [isMutation, isMemberCreate, isCommunityCreate, isGroupCreate,
                          isIdentityWrite] at hm
                    · simp at hcall
                  · rcases get_or_create_calls env (groupName cid) _ hcall with hcall | hcall <;>
                      simp at hcall
                cases hr : (processCaretakers env (groupName cid) cid cares).2 with
                | error reason =>
                  rw [hr] at h
                  try dsimp only at h
                  rcases List.mem_append.mp h with h | h
                  · exact absurd rfl (hbase _ h)
                  · exact processCaretakers_member_calls env (groupName cid) cid cares d h
                | ok created =>
                  rw [hr] at h
                  try dsimp only at h
                  cases ha : (adminStage env cid (groupName cid) c.name pw pwc).2 with
                  | error reason =>
                    rw [ha] at h
                    try dsimp only at h
                    rcases List.mem_append.mp h with h | h
                    · rcases List.mem_append.mp h with h | h
                      · exact absurd rfl (hbase _ h)
                      · exact processCaretakers_member_calls env (groupName cid) cid cares d h
                    · have := adminStage_member_calls env cid (groupName cid) c.name pw pwc d h
                      rw [this]
                  | ok aid =>
                    rw [ha] at h
                    try dsimp only at h
                    rcases List.mem_append.mp h with h | h
                    · rcases List.mem_append.mp h with h | h
                      · exact absurd rfl (hbase _ h)
                      · exact processCaretakers_member_calls env (groupName cid) cid cares d h
                    · have := adminStage_member_calls env cid (groupName cid) c.name pw pwc d h
                      rw [this]

/-- Witness for C6: in the concrete all-success zero-member run the admin
member-create call carries the created tenant id. -/
theorem member_create_binds_tenant_witness :
    ∃ c, [commOak] = [c] ∧
      envAllGood.createCommunity c =
        some (CaretakerInput.communityId ⟨"Oak Manor", "Admin",
          "oakmanor@foresightcares.com", "id1"⟩) :=
  member_create_binds_tenant envAllGood fileBlank [commOak] [] "pw" "pw"
    ⟨"Oak Manor", "Admin", "oakmanor@foresightcares.com", "id1"⟩ (by decide)

/-- Counterexample to claim C5 as stated: a valid zero-member all-success
run does reach `done` with one tenant and one group created, but it does
not leave the data backend without member records — the admin member record
is created, so exactly one member-creation call occurs, not zero. -/
theorem zero_member_admin_record_cex :
    (process_excel_file envAllGood fileBlank [commOak] [] "pw" "pw").2 =
      .done ⟨1, 1, 0, 0⟩ ∧
    countCalls isCommunityCreate
      (process_excel_file envAllGood fileBlank [commOak] [] "pw" "pw").1 = 1 ∧
    countCalls isGroupCreate
      (process_excel_file envAllGood fileBlank [commOak] [] "pw" "pw").1 = 1 ∧
    countCalls isMemberCreate
      (process_excel_file envAllGood fileBlank [commOak] [] "pw" "pw").1 = 1 :=
  ⟨rfl, rfl, rfl, rfl⟩

/-- Claim C5 (amended): a valid input with exactly one tenant record and
zero member records, on which the guards pass and every backend call
succeeds, reaches `done` having issued exactly one tenant-creation call,
one group-creation call, and exactly one member-creation call — the admin
member record; no member record is created for the (empty) input member
list. -/
theorem zero_member_run (env : Env) (f : ExcelFile) (c : CommunityData)
    (pw pwc : String) (cid aid : String)
    (h0 : (check_excel_already_processed f).1 = false)
    (h1 : (usersGuard env [c] []).2 = false)
    (h2 : (groupGuard env [c]).2 = false)
    (h3 : env.createCommunity c = some cid)
    (h4 : env.getGroup (groupName cid) = .notFound)
    (h5 : env.createGroup (groupName cid) = true)
    (h6 : pw ≠ "") (h7 : pw = pwc)
    (h8 : env.addVerifiedUserToCognito (adminEmail c.name) = true)
    (h9 : env.createCaretaker ⟨c.name, "Admin", adminEmail c.name, cid⟩ = some aid) :
    (process_excel_file env f [c] [] pw pwc).2 = .done ⟨1, 1, 0, 0⟩ ∧
    countCalls isCommunityCreate (process_excel_file env f [c] [] pw pwc).1 = 1 ∧
    countCalls isGroupCreate (process_excel_file env f [c] [] pw pwc).1 = 1 ∧
    countCalls isMemberCreate (process_excel_file env f [c] [] pw pwc).1 = 1 := by
  have hrun : process_excel_file env f [c] [] pw pwc =
      ((usersGuard env [c] []).1 ++ (groupGuard env [c]).1 ++
         [Call.createCommunityCall c] ++
         [Call.getGroupCall (groupName cid), Call.createGroupCall (groupName cid)] ++
         ([] : List Call) ++
         [Call.addVerifiedUserCall (adminEmail c.name),
          Call.createCaretakerCall ⟨c.name, "Admin", adminEmail c.name, cid⟩,
          Call.verifyCall (adminEmail c.name)],
       .done ⟨1, 1, 0, 0⟩) := by
    rw [process_excel_file, if_neg (by simp [h0])]
    try dsimp only
    rw [if_neg (by simp [h1])]
    try dsimp only
    rw [if_neg (by simp [h2])]
    try dsimp only
    rw [h3]
    try dsimp only
    rw [get_or_create_cognito_group, h4]
    try dsimp only
    rw [if_neg (by simp [h5])]
    try dsimp only
    rw [processCaretakers]
    try dsimp only
    rw [adminStage, if_neg h6, if_neg (by simp [h7]),
      if_neg (groupName_ne_empty cid), if_neg (by simp [h8]), h9]
    try dsimp only
    rfl
  refine ⟨by rw [hrun], ?_, ?_, ?_⟩
  · rw [hrun]
    simp only [countCalls_append]
    rw [countCalls_zero _ _ (fun call hc =>
          (not_mutation_split call (usersGuard_not_mutation env [c] [] call hc)).1),
        countCalls_zero _ _ (fun call hc =>
          (not_mutation_split call (groupGuard_not_mutation env [c] call hc)).1)]
    rfl
  · rw [hrun]
    simp only [countCalls_append]
    rw [countCalls_zero _ _ (fun call hc =>
          (not_mutation_split call (usersGuard_not_mutation env [c] [] call hc)).2.1),
        countCalls_zero _ _ (fun call hc =>
          (not_mutation_split call (groupGuard_not_mutation env [c] call hc)).2.1)]
    rfl
  · rw [hrun]
    simp only [countCalls_append]
    rw [countCalls_zero _ _ (fun call hc =>
          (not_mutation_split call (usersGuard_not_mutation env [c] [] call hc)).2.2.1),
        countCalls_zero _ _ (fun call hc =>
          (not_mutation_split call (groupGuard_not_mutation env [c] call hc)).2.2.1)]
    rfl

/-- Witness for C5 (amended) at the concrete all-success fixtures. -/
theorem zero_member_run_witness :
    (process_excel_file envAllGood fileBlank [commOak] [] "pw" "pw").2 =
      .done ⟨1, 1, 0, 0⟩ ∧
    countCalls isCommunityCreate
      (process_excel_file envAllGood fileBlank [commOak] [] "pw" "pw").1 = 1 ∧
    countCalls isGroupCreate
      (process_excel_file envAllGood fileBlank [commOak] [] "pw" "pw").1 = 1 ∧
    countCalls isMemberCreate
      (process_excel_file envAllGood fileBlank [commOak] [] "pw" "pw").1 = 1 :=
  zero_member_run envAllGood fileBlank commOak "pw" "pw" "id1" "cid1"
    rfl rfl rfl rfl rfl rfl (by decide) rfl rfl rfl

end CommReg
